import Mathlib

/-!
Verification of the dataset assembly / sequence-extraction engine and the
autoregressive rollout driver of the `autoreg-pde-diffusion` repository
(`src/scripts/dataloader.py` and `src/scripts/validation.py`).

The Python code is shallowly embedded: machine integers become `Int`
(Python integers are unbounded), per-frame `.npz` files become a boolean
existence predicate `files : Int → String → Bool`, numpy arrays become
nested lists, and exceptions become `Except String`.
-/

namespace AutoregPde

/-- One entry of `TurbulenceDataset.dataPaths` (the directory component is
dropped since a single simulation directory is modelled):
`(seqStart, seqStart + seqLength*seqSkip, seqSkip)` from dataloader.py line 141. -/
structure WinD where
  seqStart : Int
  seqEnd : Int
  seqSkip : Int
  deriving DecidableEq, Repr

/-- Number of elements of Python `range(a, b, step)` for `step > 0`. -/
def pyRangeLen (a b step : Int) : Nat := ((b - a + step - 1) / step).toNat

/-- Python `range(a, b, step)` for a positive step, as the list
`[a, a+step, ...]` of all `a + k*step < b`. -/
def pyRange (a b step : Int) : List Int :=
  (List.range (pyRangeLen a b step)).map (fun (k : Nat) => a + (k : Int) * step)

/-- Inner loop of dataloader.py lines 128-131: check that the per-frame file of
every selected field exists for one frame; a missing file raises
`FileNotFoundError`. -/
def checkFields (files : Int → String → Bool) (frame : Int) : List String → Except String Unit
  | [] => Except.ok ()
  | f :: fs =>
    if files frame f then checkFields files frame fs
    else Except.error ("Could not load " ++ f ++ " file")

/-- Frame loop of dataloader.py lines 122-131 for a window already known to be
complete: every frame of `range(seqStart, seqStart+seqLength*seqSkip, seqSkip)`
must have all field files. -/
def checkSeqFiles (files : Int → String → Bool) (fields : List String) :
    List Int → Except String Unit
  | [] => Except.ok ()
  | fr :: rest =>
    match checkFields files fr fields with
    | Except.error e => Except.error e
    | Except.ok _ => checkSeqFiles files fields rest

/-- Outer window loop of dataloader.py lines 120-141, iterating over the
`seqStart` values of `range(minFrame, maxFrame, seqLength*seqSkip)`: a window
whose end exceeds `maxFrame` sets `validSeq = False` (before any file check)
and breaks out of the whole loop; otherwise all its files are checked
(`FileNotFoundError` on a missing one) and the window descriptor is appended. -/
def buildLoop (files : Int → String → Bool) (fields : List String) (maxF L S : Int) :
    List Int → Except String (List WinD)
  | [] => Except.ok []
  | s :: rest =>
    if maxF < s + L * S then Except.ok []
    else
      match checkSeqFiles files fields (pyRange s (s + L * S) S) with
      | Except.error e => Except.error e
      | Except.ok _ =>
        match buildLoop files fields maxF L S rest with
        | Except.error e => Except.error e
        | Except.ok ws => Except.ok (⟨s, s + L * S, S⟩ :: ws)

/-- The windower for one kept simulation with resolved frame filter
`[minF, maxF)` and resolved `(seqLength, seqSkip) = (L, S)`
(dataloader.py lines 116-141). -/
def simWindows (files : Int → String → Bool) (fields : List String)
    (minF maxF L S : Int) : Except String (List WinD) :=
  buildLoop files fields maxF L S (pyRange minF maxF (L * S))

/-- The frames `range(start, end, stride)` a window addresses. -/
def winFrames (w : WinD) : List Int := pyRange w.seqStart w.seqEnd w.seqSkip

/-- dataloader.py line 155: `halfSeq = int((seqEnd-seqStart)/2)`; the window
length is nonnegative, so Python truncation agrees with floor division. -/
def halfSeq (seqStart seqEnd : Int) : Int := (seqEnd - seqStart) / 2

/-- dataloader.py lines 156-159: the drawn `offset` replaces the window by the
shifted one exactly when `seqStart + offset >= filterFrame[0][0]` and
`seqEnd + offset < filterFrame[0][1]`; otherwise the original window is kept
silently. -/
def applyRandOffset (seqStart seqEnd minF maxF offset : Int) : Int × Int :=
  if minF ≤ seqStart + offset ∧ seqEnd + offset < maxF then
    (seqStart + offset, seqEnd + offset)
  else (seqStart, seqEnd)

/-- dataloader.py lines 46-50: the field list always starts with velocity and
appends density and pressure when the corresponding keys are requested. -/
def simFieldsSel (simFields : List String) : List String :=
  ["velocity"] ++ (if "dens" ∈ simFields then ["density"] else [])
    ++ (if "pres" ∈ simFields then ["pressure"] else [])

/-- dataloader.py lines 199-225 viewed at a single time index: each selected
field's per-frame array contributes its channels (the velocity components in
their per-axis order), the fields are concatenated along the channel axis in
`simFields` order, and the broadcast parameter channels are appended last. -/
def frameChannels {α : Type} (load : String → Int → List α) (fields : List String)
    (par : Int → List α) (frame : Int) : List α :=
  (fields.map (fun f => load f frame)).flatten ++ par frame

/-- The per-sample data tensor as a time-major list of channel lists. -/
def assembleData {α : Type} (load : String → Int → List α) (fields : List String)
    (par : Int → List α) (frames : List Int) : List (List α) :=
  frames.map (frameChannels load fields par)

/-- Which parameter columns dataloader.py lines 180-191 stack into
`simParameters`; `empty` is the `{}` of the `elif not self.simParams` branch. -/
inductive SimParamsChoice where
  | reyMach
  | rey
  | mach
  | zslice
  | empty
  deriving DecidableEq, Repr

/-- dataloader.py lines 180-191: the `elif` chain over the requested parameter
names; an empty request yields the empty dict, and the `ValueError` branch is
reached only when the nonempty request contains no recognized name. -/
def selectSimParams (simParams : List String) : Except String SimParamsChoice :=
  if "rey" ∈ simParams ∧ "mach" ∈ simParams then Except.ok SimParamsChoice.reyMach
  else if "rey" ∈ simParams then Except.ok SimParamsChoice.rey
  else if "mach" ∈ simParams then Except.ok SimParamsChoice.mach
  else if "zslice" ∈ simParams then Except.ok SimParamsChoice.zslice
  else if simParams = [] then Except.ok SimParamsChoice.empty
  else Except.error "Invalid specification of simulation parameters"

/-- numpy broadcast of the `(T, P)` parameter array over a 2-D spatial domain
(dataloader.py lines 216-217): `p[t][c]` repeated `X × Y` times. -/
def expand2D {α : Type} (p : List (List α)) (X Y : Nat) :
    List (List (List (List α))) :=
  p.map (fun row => row.map (fun v => List.replicate X (List.replicate Y v)))

/-- numpy broadcast of the `(T, P)` parameter array over a 3-D spatial domain
(dataloader.py lines 219-220): `p[t][c]` repeated `X × Y × Z` times. -/
def expand3D {α : Type} (p : List (List α)) (X Y Z : Nat) :
    List (List (List (List (List α)))) :=
  p.map (fun row => row.map (fun v =>
    List.replicate X (List.replicate Y (List.replicate Z v))))

/-- Result of the parameter-broadcast step: nothing when no parameter was
requested, else the expanded array for the 2-D or 3-D spatial case. -/
inductive BroadcastResult (α : Type) where
  | noParams : BroadcastResult α
  | par4 : List (List (List (List α))) → BroadcastResult α
  | par5 : List (List (List (List (List α)))) → BroadcastResult α

/-- dataloader.py lines 213-222: the velocity rank is inspected only when
`simParameters` is not the empty dict (`hasParams`); rank 4 and rank 5
broadcast the parameters over the spatial axes, any other rank raises
`ValueError`. -/
def broadcastSimParams {α : Type} (hasParams : Bool) (p : List (List α))
    (ndim X Y Z : Nat) : Except String (BroadcastResult α) :=
  if hasParams then
    if ndim = 4 then Except.ok (BroadcastResult.par4 (expand2D p X Y))
    else if ndim = 5 then Except.ok (BroadcastResult.par5 (expand3D p X Y Z))
    else Except.error "Invalid input shape when loading samples!"
  else Except.ok BroadcastResult.noParams

/-- The string printed by dataloader.py line 236. -/
def noTransformWarning : String := "WARNING: no data transformations are employed!"

/-- dataloader.py lines 233-236: the tail of `__getitem__` either applies the
configured transform or prints the no-normalization warning and returns the
sample unchanged; the second component collects what this access prints. -/
def applySampleTransform {α : Type} (transform : Option (α → α)) (sample : α) :
    α × List String :=
  match transform with
  | some t => (t sample, [])
  | none => (sample, [noTransformWarning])

/-- A run of sequential accesses, returning all samples and every warning
printed across the run. -/
def datasetAccesses {α : Type} (transform : Option (α → α)) (samples : List α) :
    List α × List String :=
  samples.foldl
    (fun acc sample =>
      ((acc.1 ++ [(applySampleTransform transform sample).1],
        acc.2 ++ (applySampleTransform transform sample).2)))
    ([], [])

/-- dataloader.py lines 74-81: `match` starts at `-1` and the category search
(together with its assert) runs only when `len(filterSim) > 1 or
len(filterFrame) > 1`; the substring test `filterTop[i] in topDir` is
abstracted as `matchesTop i`. -/
def computeMatch (filterSimLen filterFrameLen filterTopLen : Nat)
    (matchesTop : Nat → Bool) : Except String Int :=
  if 1 < filterSimLen ∨ 1 < filterFrameLen then
    match (List.range filterTopLen).find? matchesTop with
    | some i => Except.ok (i : Int)
    | none => Except.error "Match computation error"
  else Except.ok (-1)

/-- Python list indexing: a negative index `i` reads position `len(xs) + i`;
out of range is an `IndexError`, modelled as `none`. -/
def pyIdx {α : Type} (xs : List α) (i : Int) : Option α :=
  if 0 ≤ i then xs[i.toNat]?
  else if (-i).toNat ≤ xs.length then xs[xs.length - (-i).toNat]? else none

/-- dataloader.py line 118 (line 119 is identical for the second component):
`sequenceLength[0] if len(sequenceLength) == 1 else sequenceLength[match]`. -/
def resolveSeqLen (sequenceLength : List (Int × Int)) (matchIdx : Int) :
    Option (Int × Int) :=
  if sequenceLength.length = 1 then sequenceLength[0]?
  else pyIdx sequenceLength matchIdx

/-- validation.py lines 234-239: `prediction = torch.zeros_like(d)` followed by
the warm-up loop `for i in range(inputSteps): prediction[:,i] = d[:,i]`. -/
def warmupBuffer {α : Type} (inputSteps : Nat) (zero : α) (d : List α) : List α :=
  (List.range inputSteps).foldl
    (fun p i => p.set i (d.getD i zero)) (List.replicate d.length zero)

/-- validation.py lines 234-254: the rollout driver over one sequence. `d` is
the ground-truth frame sequence, `model cond cur` the external model invoked
with the channel-concatenated conditioning frames and the `data` argument.
After the warm-up copy, the loop at line 240 writes each position `i` with the
model applied to the conditioning `[prediction[i-j] for j = inputSteps..1]`
and `data = d[:, i-1:i]` — the ground-truth frame `i-1`. -/
def rollout {α : Type} (model : List α → α → α) (inputSteps : Nat) (zero : α)
    (d : List α) : List α :=
  (List.range' inputSteps (d.length - inputSteps)).foldl
    (fun p i =>
      p.set i (model
        ((List.range inputSteps).map (fun j => p.getD (i - (inputSteps - j)) zero))
        (d.getD (i - 1) zero)))
    (warmupBuffer inputSteps zero d)

/-- Modelled from the claim's words (spec §4.5, testable property 7): the same
rollout, but invoking the model with the immediately preceding prediction
frame — prediction-buffer position `i-1`, not the ground-truth frame — as the
`data` argument, so that ground truth is never referenced after the warm-up
positions. Kept separate so the claimed behaviour can be compared with
`rollout`, the embedding of the code. -/
def rolloutSpecVersion {α : Type} (model : List α → α → α) (inputSteps : Nat)
    (zero : α) (d : List α) : List α :=
  (List.range' inputSteps (d.length - inputSteps)).foldl
    (fun p i =>
      p.set i (model
        ((List.range inputSteps).map (fun j => p.getD (i - (inputSteps - j)) zero))
        (p.getD (i - 1) zero)))
    (warmupBuffer inputSteps zero d)

/-- The position-wise recursive description of the rollout buffer: ground
truth below `inputSteps`, else the model applied to the window of the buffer's
own previous `inputSteps` entries and the ground-truth frame `i-1`. -/
def predAt {α : Type} (model : List α → α → α) (inputSteps : Nat) (zero : α)
    (d : List α) (i : Nat) : α :=
  if h : i < inputSteps then d.getD i zero
  else
    model
      ((List.range inputSteps).attach.map
        (fun j => predAt model inputSteps zero d (i - inputSteps + j.1)))
      (d.getD (i - 1) zero)
termination_by i
decreasing_by
  have hj := List.mem_range.mp j.2
  omega

/-- dataloader.py line 266: the dataset-wide per-channel mean statistics of the
`traMixed` normalization mode, in the fixed channel order velocity-x,
velocity-y, density, pressure, Reynolds number, Mach number (floats embedded as
exact rationals). -/
def normMeanTraMixed : List ℚ :=
  [0.560642, -0.000129, 0.903352, 0.637941, 10000.000000, 0.700000]

/-- dataloader.py line 267: the matching per-channel std statistics. -/
def normStdTraMixed : List ℚ :=
  [0.216987, 0.216987, 0.145391, 0.119944, 1, 0.118322]

/-- dataloader.py lines 279-288: the statistics-channel indices selected by the
active field and parameter sets. -/
def filterList (simFields simParams : List String) : List Nat :=
  [0, 1] ++ (if "dens" ∈ simFields then [2] else [])
    ++ (if "pres" ∈ simFields then [3] else [])
    ++ (if "rey" ∈ simParams then [4] else [])
    ++ (if "mach" ∈ simParams then [5] else [])

/-- numpy fancy indexing `arr[idx]` (dataloader.py lines 292-297); the indices
produced by `filterList` are always in range. -/
def select (xs : List ℚ) (idx : List Nat) : List ℚ :=
  idx.map (fun i => xs.getD i 0)

/-- Python `arr[-k:]` (dataloader.py line 289): the last `k` entries, the whole
array when `k = 0` or `k ≥ len(arr)`. -/
def pySliceLast {α : Type} (xs : List α) (k : Nat) : List α :=
  if k = 0 then xs else xs.drop (xs.length - k)

/-- dataloader.py line 298, `(data - meanData) / stdData` with the statistics
reshaped to `(1, -1, 1, 1)`: channel `c` of every time slice is standardized
with `mean[c]`, `std[c]`, broadcast over the spatial axes. -/
def normalizeData (mean std : List ℚ) (data : List (List (List (List ℚ)))) :
    List (List (List (List ℚ))) :=
  data.map (fun tsl =>
    List.zipWith
      (fun ms chan => chan.map (fun row => row.map (fun v => (v - ms.1) / ms.2)))
      (mean.zip std) tsl)

/-- dataloader.py line 294, `(simParameters - meanParam) / stdParam` with the
parameter statistics reshaped to `(1, -1)`: column `c` of every row is
standardized with the `c`-th selected statistic. -/
def normalizeParams (mean std : List ℚ) (params : List (List ℚ)) :
    List (List ℚ) :=
  params.map (fun row =>
    List.zipWith (fun ms v => (v - ms.1) / ms.2) (mean.zip std) row)

/-- DataTransforms.__call__ (dataloader.py lines 270-308) acting on the data
tensor and the compact parameter tensor with the `traMixed` statistics: the
parameter tensor is normalized only when `self.simParams` is nonempty. -/
def transformCall (simFields simParams : List String)
    (data : List (List (List (List ℚ)))) (params : List (List ℚ)) :
    List (List (List (List ℚ))) × List (List ℚ) :=
  (normalizeData (select normMeanTraMixed (filterList simFields simParams))
      (select normStdTraMixed (filterList simFields simParams)) data,
   if simParams = [] then params
   else normalizeParams
     (select normMeanTraMixed
       (pySliceLast (filterList simFields simParams) simParams.length))
     (select normStdTraMixed
       (pySliceLast (filterList simFields simParams) simParams.length))
     params)

/-- Modelled from the spec: the inverse `x * std + mean` of the per-channel
standardization, with the same stored statistics selection (the repository
carries the inverse only as commented-out code in validation.py lines
269-274). -/
def denormalizeData (mean std : List ℚ) (data : List (List (List (List ℚ)))) :
    List (List (List (List ℚ))) :=
  data.map (fun tsl =>
    List.zipWith
      (fun ms chan => chan.map (fun row => row.map (fun v => v * ms.2 + ms.1)))
      (mean.zip std) tsl)

/-- Modelled from the spec: the inverse of the parameter standardization. -/
def denormalizeParams (mean std : List ℚ) (params : List (List ℚ)) :
    List (List ℚ) :=
  params.map (fun row =>
    List.zipWith (fun ms v => v * ms.2 + ms.1) (mean.zip std) row)

/-- Modelled from the spec: inverting the transform with the same stored
mean/std statistics and the same channel selection. -/
def inverseTransformCall (simFields simParams : List String)
    (dp : List (List (List (List ℚ))) × List (List ℚ)) :
    List (List (List (List ℚ))) × List (List ℚ) :=
  (denormalizeData (select normMeanTraMixed (filterList simFields simParams))
      (select normStdTraMixed (filterList simFields simParams)) dp.1,
   if simParams = [] then dp.2
   else denormalizeParams
     (select normMeanTraMixed
       (pySliceLast (filterList simFields simParams) simParams.length))
     (select normStdTraMixed
       (pySliceLast (filterList simFields simParams) simParams.length))
     dp.2)

/-! ### Theorems -/

theorem checkFields_ok_iff (files : Int → String → Bool) (frame : Int) (fs : List String) :
    checkFields files frame fs = Except.ok () ↔ ∀ fl ∈ fs, files frame fl = true := by
  induction fs with
  | nil => simp [checkFields]
  | cons f fs ih =>
    by_cases hb : files frame f = true
    · simp [checkFields, hb, ih]
    · have hb' : files frame f = false := by simpa using hb
      have hnot : ¬ (∀ fl ∈ f :: fs, files frame fl = true) := by
        intro hall
        have := hall f (List.mem_cons_self f fs)
        rw [hb'] at this
        exact Bool.false_ne_true this
      simp [checkFields, hb', hnot]

theorem checkSeqFiles_ok_iff (files : Int → String → Bool) (fields : List String)
    (frs : List Int) :
    checkSeqFiles files fields frs = Except.ok () ↔
      ∀ fr ∈ frs, ∀ fl ∈ fields, files fr fl = true := by
  induction frs with
  | nil => simp [checkSeqFiles]
  | cons fr rest ih =>
    rcases h : checkFields files fr fields with e | u
    · simp only [checkSeqFiles, h]
      constructor
      · intro hcontra; exact absurd hcontra (by simp)
      · intro hall
        have : checkFields files fr fields = Except.ok () :=
          (checkFields_ok_iff files fr fields).mpr (hall fr (by simp))
        rw [h] at this; exact absurd this (by simp)
    · simp only [checkSeqFiles, h]
      rw [ih]
      constructor
      · intro hall fr' hfr' fl hfl
        rcases List.mem_cons.mp hfr' with rfl | hmem
        · exact (checkFields_ok_iff files fr' fields).mp (by rw [h]) fl hfl
        · exact hall fr' hmem fl hfl
      · intro hall fr' hfr' fl hfl
        exact hall fr' (List.mem_cons_of_mem _ hfr') fl hfl

theorem buildLoop_allFiles (files : Int → String → Bool) (fields : List String)
    (maxF L S : Int) (hall : ∀ fr fl, fl ∈ fields → files fr fl = true) :
    ∀ ss : List Int, buildLoop files fields maxF L S ss =
      Except.ok ((ss.takeWhile (fun s => decide (s + L * S ≤ maxF))).map
        (fun s => ⟨s, s + L * S, S⟩)) := by
  intro ss
  induction ss with
  | nil => simp [buildLoop]
  | cons s rest ih =>
    by_cases h : maxF < s + L * S
    · have hp : (decide (s + L * S ≤ maxF)) = false := by simp; linarith
      simp [buildLoop, h, List.takeWhile_cons, hp]
    · have hp : (decide (s + L * S ≤ maxF)) = true := by simp; linarith
      have hchk : checkSeqFiles files fields (pyRange s (s + L * S) S) = Except.ok () :=
        (checkSeqFiles_ok_iff _ _ _).mpr (fun fr _ fl hfl => hall fr fl hfl)
      simp [buildLoop, h, hchk, ih, List.takeWhile_cons, hp]

theorem buildLoop_sound (files : Int → String → Bool) (fields : List String)
    (maxF L S : Int) :
    ∀ ss ws, buildLoop files fields maxF L S ss = Except.ok ws →
      ∀ w ∈ ws, w.seqEnd = w.seqStart + L * S ∧ w.seqSkip = S ∧
        checkSeqFiles files fields (winFrames w) = Except.ok () := by
  intro ss
  induction ss with
  | nil =>
    intro ws h w hw
    simp only [buildLoop] at h
    cases h; simp at hw
  | cons s rest ih =>
    intro ws h w hw
    by_cases hstop : maxF < s + L * S
    · simp only [buildLoop, if_pos hstop] at h
      cases h; simp at hw
    · simp only [buildLoop, if_neg hstop] at h
      rcases hchk : checkSeqFiles files fields (pyRange s (s + L * S) S) with e | u
      · rw [hchk] at h; exact absurd h (by simp)
      · rw [hchk] at h
        rcases hrec : buildLoop files fields maxF L S rest with e | ws'
        · rw [hrec] at h; exact absurd h (by simp)
        · rw [hrec] at h
          have hws : ws = ⟨s, s + L * S, S⟩ :: ws' := by
            cases h; rfl
          subst hws
          rcases List.mem_cons.mp hw with rfl | hmem
          · refine ⟨rfl, rfl, ?_⟩
            simpa [winFrames] using hchk
          · exact ih ws' hrec w hmem

theorem pyRange_takeWhile (a b step : Int) (hstep : 1 ≤ step) (hab : a ≤ b) :
    (pyRange a b step).takeWhile (fun s => decide (s + step ≤ b))
      = (List.range ((b - a) / step).toNat).map (fun (k : Nat) => a + (k : Int) * step) := by
  set f : Nat → Int := fun k => a + (k : Int) * step with hf
  set N : Nat := ((b - a) / step).toNat with hN
  set M : Nat := pyRangeLen a b step with hM
  have hstep0 : (0 : Int) < step := by linarith
  have hdiv_nonneg : (0 : Int) ≤ (b - a) / step := Int.ediv_nonneg (by linarith) (by linarith)
  have hNcast : ((N : Int)) = (b - a) / step := Int.toNat_of_nonneg hdiv_nonneg
  have hkey : ∀ k : Nat, (f k + step ≤ b ↔ (k : Int) < (b - a) / step) := by
    intro k
    rw [hf]
    constructor
    · intro h
      have h2 : ((k : Int) + 1) * step ≤ b - a := by ring_nf; ring_nf at h; linarith
      have := (Int.le_ediv_iff_mul_le hstep0).mpr h2
      linarith
    · intro h
      have h2 : (k : Int) + 1 ≤ (b - a) / step := by linarith
      have := (Int.le_ediv_iff_mul_le hstep0).mp h2
      ring_nf; ring_nf at this; linarith
  have hNM : N ≤ M := by
    rw [hN, hM]
    unfold pyRangeLen
    exact Int.toNat_le_toNat (Int.ediv_le_ediv hstep0 (by linarith))
  have hsplit : List.range M = List.range N ++ List.range' N (M - N) := by
    rw [List.range_eq_range', List.range_eq_range']
    have happ := List.range'_append 0 N (M - N) 1
    simp only [one_mul, zero_add] at happ
    have h2 : M - N + N = M := by omega
    calc List.range' 0 M = List.range' 0 (M - N + N) := by rw [h2]
      _ = List.range' 0 N ++ List.range' N (M - N) := happ.symm
  have hmap : pyRange a b step = (List.range N).map f ++ (List.range' N (M - N)).map f := by
    have h1 : pyRange a b step = (List.range M).map f := rfl
    rw [h1, hsplit, List.map_append]
  rw [hmap]
  rw [List.takeWhile_append]
  have htake1 : ((List.range N).map f).takeWhile (fun s => decide (s + step ≤ b))
      = (List.range N).map f := by
    rw [List.takeWhile_eq_self_iff]
    intro x hx
    rcases List.mem_map.mp hx with ⟨k, hk, rfl⟩
    have hkN : k < N := List.mem_range.mp hk
    simp only [decide_eq_true_eq]
    rw [hkey k]
    rw [← hNcast]
    exact_mod_cast hkN
  have htake2 : ((List.range' N (M - N)).map f).takeWhile (fun s => decide (s + step ≤ b))
      = [] := by
    rcases Nat.eq_zero_or_pos (M - N) with h0 | hpos
    · rw [h0]; rfl
    · obtain ⟨m, hm⟩ : ∃ m, M - N = m + 1 := ⟨M - N - 1, by omega⟩
      rw [hm]
      have : List.range' N (m + 1) = N :: List.range' (N + 1) m := List.range'_succ N m 1
      rw [this]
      simp only [List.map_cons, List.takeWhile_cons]
      have hfail : (decide (f N + step ≤ b)) = false := by
        simp only [decide_eq_false_iff_not]
        rw [hkey N, ← hNcast]
        exact lt_irrefl _
      rw [hfail]
      simp
  rw [htake1, htake2, if_pos rfl, List.append_nil]

theorem helper_simWindows_allFiles (files : Int → String → Bool) (fields : List String)
    (minF maxF L S : Int) (hL : 1 ≤ L) (hS : 1 ≤ S) (hMF : minF ≤ maxF)
    (hall : ∀ fr fl, fl ∈ fields → files fr fl = true) :
    simWindows files fields minF maxF L S =
      Except.ok ((List.range (((maxF - minF) / (L * S)).toNat)).map
        (fun (k : Nat) => ⟨minF + (k : Int) * (L * S), minF + ((k : Int) + 1) * (L * S), S⟩)) := by
  have hLS : (1 : Int) ≤ L * S := by nlinarith
  rw [simWindows, buildLoop_allFiles files fields maxF L S hall,
      pyRange_takeWhile minF maxF (L * S) hLS hMF, List.map_map]
  congr 1
  apply List.map_congr_left
  intro k _
  show (⟨minF + (k : Int) * (L * S), minF + (k : Int) * (L * S) + L * S, S⟩ : WinD)
      = ⟨minF + (k : Int) * (L * S), minF + ((k : Int) + 1) * (L * S), S⟩
  congr 1
  ring

/-- C2: for every kept simulation with resolved frame range `[minF, maxF)` and
resolved `(sequenceLength, stride) = (L, S)` (all per-frame files present), the
windower produces exactly `floor((maxF - minF) / (L*S))` window descriptors, in
increasing, contiguous, non-overlapping order starting at `minF` with spacing
`L*S`; the first window whose exclusive end would exceed `maxF`, and all
subsequent ones, are discarded. -/
theorem windower_count (files : Int → String → Bool) (fields : List String)
    (minF maxF L S : Int) (hL : 1 ≤ L) (hS : 1 ≤ S) (hMF : minF ≤ maxF)
    (hall : ∀ fr fl, fl ∈ fields → files fr fl = true) :
    simWindows files fields minF maxF L S =
      Except.ok ((List.range (((maxF - minF) / (L * S)).toNat)).map
        (fun (k : Nat) => ⟨minF + (k : Int) * (L * S), minF + ((k : Int) + 1) * (L * S), S⟩)) :=
  helper_simWindows_allFiles files fields minF maxF L S hL hS hMF hall

theorem windower_count_witness :
    simWindows (fun _ _ => true) ["velocity"] 0 10 2 2 =
      Except.ok [⟨0, 4, 2⟩, ⟨4, 8, 2⟩] := by
  have h := windower_count (fun _ _ => true) ["velocity"] 0 10 2 2
    (by norm_num) (by norm_num) (by norm_num) (fun _ _ _ => rfl)
  exact h.trans (by rfl)

/-- C3: every window the construction keeps has had every per-frame file of
every selected field in `range(start, end, stride)` verified to exist
(a missing file makes the eager construction fail, never a lazy access), while
an incomplete trailing window is a silent stop condition: with all files
present the construction always succeeds, whatever the remainder
`(maxF - minF) mod (L*S)` is. -/
theorem window_files_eager (files : Int → String → Bool) (fields : List String)
    (minF maxF L S : Int) (hL : 1 ≤ L) (hS : 1 ≤ S) :
    (∀ ws, simWindows files fields minF maxF L S = Except.ok ws →
        ∀ w ∈ ws, ∀ fr ∈ winFrames w, ∀ fl ∈ fields, files fr fl = true) ∧
    ((∀ fr fl, fl ∈ fields → files fr fl = true) →
        (simWindows files fields minF maxF L S).isOk = true) := by
  constructor
  · intro ws h w hw fr hfr fl hfl
    have hsound := buildLoop_sound files fields maxF L S
      (pyRange minF maxF (L * S)) ws h w hw
    exact (checkSeqFiles_ok_iff files fields (winFrames w)).mp hsound.2.2 fr hfr fl hfl
  · intro hall
    rw [simWindows, buildLoop_allFiles files fields maxF L S hall]
    rfl

theorem window_files_eager_witness :
    (simWindows (fun _ _ => true) ["velocity"] 0 10 3 1).isOk = true :=
  (window_files_eager (fun _ _ => true) ["velocity"] 0 10 3 1
    (by norm_num) (by norm_num)).2 (fun _ _ _ => rfl)

/-- C4 counterexample: for the window `[0, 4)` with frame filter `[0, 6)`, the
drawable offset `2` (within `[-halfSeq, +halfSeq] = [-2, 2]`) shifts the window
to `[2, 6)`, which lies fully inside the filter `[0, 6)`; the claim therefore
requires the shift to be accepted, but the code keeps the original window
because it demands the strict inequality `seqEnd + offset < maxFrame`. -/
theorem randOffset_counterexample :
    (-halfSeq 0 4 ≤ 2 ∧ 2 ≤ halfSeq 0 4) ∧
    ((0 : Int) ≤ 0 + 2 ∧ (4 : Int) + 2 ≤ 6) ∧
    applyRandOffset 0 4 0 6 2 = (0, 4) ∧
    ((0 : Int), (4 : Int)) ≠ (0 + 2, 4 + 2) := by
  refine ⟨by decide, by decide, ?_, by decide⟩
  rfl

/-- C4 (amended): the uniform offset is drawn from `[-halfSeq, +halfSeq]` with
`halfSeq = (seqEnd - seqStart) / 2`, and the shifted window is accepted iff
`filterFrame[0][0] ≤ seqStart + offset` and `seqEnd + offset` is strictly below
the exclusive bound `filterFrame[0][1]` (so a shifted window whose exclusive
end lands exactly on `maxFrame` is rejected even though it lies fully inside
the filter); otherwise the original window is kept silently. -/
theorem randOffset_characterization (s e minF maxF off : Int) (hse : s ≤ e)
    (hlo : -halfSeq s e ≤ off) (hhi : off ≤ halfSeq s e) :
    halfSeq s e = (e - s) / 2 ∧
    (minF ≤ s + off ∧ e + off ≤ maxF ∧ e + off ≠ maxF →
      applyRandOffset s e minF maxF off = (s + off, e + off)) ∧
    (¬(minF ≤ s + off ∧ e + off < maxF) →
      applyRandOffset s e minF maxF off = (s, e)) := by
  refine ⟨rfl, ?_, ?_⟩
  · rintro ⟨h1, h2, h3⟩
    have : e + off < maxF := lt_of_le_of_ne h2 h3
    rw [applyRandOffset, if_pos ⟨h1, this⟩]
  · intro h
    rw [applyRandOffset, if_neg h]

theorem randOffset_characterization_witness :
    applyRandOffset 0 4 0 7 1 = (0 + 1, 4 + 1) :=
  (randOffset_characterization 0 4 0 7 1 (by norm_num) (by decide) (by decide)).2.1
    ⟨by norm_num, by norm_num, by norm_num⟩

/-- C5: for a dataset configured with both density and pressure enabled and a
2-component (2-D) velocity field, every time row of the assembled data tensor
has the velocity components first in their native order, density at channel
index 2, pressure at channel index 3, and the broadcast parameter channels
appended after the field channels. -/
theorem channel_order {α : Type} (load : String → Int → List α)
    (par : Int → List α) (simFields : List String)
    (hdens : "dens" ∈ simFields) (hpres : "pres" ∈ simFields)
    (frames : List Int) (t : Nat) (frame : Int) (hframe : frames[t]? = some frame)
    (hv : (load "velocity" frame).length = 2)
    (hd : (load "density" frame).length = 1)
    (hp : (load "pressure" frame).length = 1) :
    (assembleData load (simFieldsSel simFields) par frames)[t]? =
      some (frameChannels load (simFieldsSel simFields) par frame) ∧
    (frameChannels load (simFieldsSel simFields) par frame).take 2 =
      load "velocity" frame ∧
    (frameChannels load (simFieldsSel simFields) par frame)[2]? =
      (load "density" frame)[0]? ∧
    (frameChannels load (simFieldsSel simFields) par frame)[3]? =
      (load "pressure" frame)[0]? ∧
    (frameChannels load (simFieldsSel simFields) par frame).drop 4 = par frame := by
  have hfields : simFieldsSel simFields = ["velocity", "density", "pressure"] := by
    simp [simFieldsSel, hdens, hpres]
  obtain ⟨v1, v2, hveq⟩ := List.length_eq_two.mp hv
  obtain ⟨d1, hdeq⟩ := List.length_eq_one.mp hd
  obtain ⟨p1, hpeq⟩ := List.length_eq_one.mp hp
  refine ⟨?_, ?_, ?_, ?_, ?_⟩
  · rw [assembleData, List.getElem?_map, hframe]
    rfl
  · rw [frameChannels, hfields]
    simp [hveq]
  · rw [frameChannels, hfields]
    simp [hveq, hdeq]
  · rw [frameChannels, hfields]
    simp [hveq, hdeq, hpeq]
  · rw [frameChannels, hfields]
    simp [hveq, hdeq, hpeq]

theorem channel_order_witness :
    (frameChannels (fun f fr => if f = "velocity" then [fr, fr + 1]
        else if f = "density" then [fr + 2] else [fr + 3])
      (simFieldsSel ["dens", "pres"]) (fun _ => [(9 : Int)]) 5)[2]? =
      ((fun (f : String) (fr : Int) => if f = "velocity" then [fr, fr + 1]
        else if f = "density" then [fr + 2] else [fr + 3]) "density" 5)[0]? :=
  (channel_order (fun f fr => if f = "velocity" then [fr, fr + 1]
      else if f = "density" then [fr + 2] else [fr + 3])
    (fun _ => [(9 : Int)]) ["dens", "pres"] (by decide) (by decide)
    [5] 0 5 rfl rfl rfl rfl).2.2.1

/-- C7 counterexample: the request `["rey", "zslice"]` is not one of the four
supported presets (`{rey, mach}`, `{rey}`, `{mach}`, `{zslice}`), yet the
access does not fail: the `elif "rey" in self.simParams` branch fires and
silently selects the Reynolds-only column. -/
theorem simParams_preset_counterexample :
    (["rey", "zslice"] : List String) ∉
      ([["rey", "mach"], ["mach", "rey"], ["rey"], ["mach"], ["zslice"]] :
        List (List String)) ∧
    selectSimParams ["rey", "zslice"] = Except.ok SimParamsChoice.rey :=
  ⟨by decide, rfl⟩

/-- C7 (amended): the parameter-selection step is fatal exactly when the
request is nonempty and contains none of the recognized names `rey`, `mach`,
`zslice` (a request containing a recognized name plus unsupported extras is
accepted by priority `rey+mach > rey > mach > zslice`), and an empty request
yields the empty structure, not a tensor. -/
theorem simParams_error_characterization (ps : List String) :
    ((selectSimParams ps).isOk = false ↔
      (ps ≠ [] ∧ "rey" ∉ ps ∧ "mach" ∉ ps ∧ "zslice" ∉ ps)) ∧
    selectSimParams [] = Except.ok SimParamsChoice.empty := by
  constructor
  · unfold selectSimParams
    split_ifs with h1 h2 h3 h4 h5
    · exact ⟨fun h => Bool.noConfusion (show true = false from h), fun hr => absurd h1.1 hr.2.1⟩
    · exact ⟨fun h => Bool.noConfusion (show true = false from h), fun hr => absurd h2 hr.2.1⟩
    · exact ⟨fun h => Bool.noConfusion (show true = false from h), fun hr => absurd h3 hr.2.2.1⟩
    · exact ⟨fun h => Bool.noConfusion (show true = false from h), fun hr => absurd h4 hr.2.2.2⟩
    · exact ⟨fun h => Bool.noConfusion (show true = false from h), fun hr => absurd h5 hr.1⟩
    · exact ⟨fun _ => ⟨h5, h2, h3, h4⟩, fun _ => rfl⟩
  · rfl

/-- C8 counterexample: when no simulation parameter is requested, the rank
guard of dataloader.py lines 213-222 is skipped entirely, so an access with a
rank-3 stacked field tensor succeeds instead of failing — the claim's "for
every sample access" is wrong for parameter-free configurations. -/
theorem rank_check_counterexample :
    ((3 : Nat) ≠ 4 ∧ (3 : Nat) ≠ 5) ∧
    (broadcastSimParams false ([] : List (List Int)) 3 0 0 0).isOk = true := by
  exact ⟨by decide, rfl⟩

/-- C8 (amended): when simulation parameters are requested, a stacked field
tensor of rank other than 4 or 5 makes the access fail with `ValueError`, and
under the precondition that the rank is 4 or 5 the error branch is unreachable
and the parameter broadcast succeeds: every spatial position of the expanded
array holds the corresponding `(time, channel)` parameter value. -/
theorem rank_guard_characterization {α : Type} (p : List (List α))
    (ndim X Y Z : Nat) :
    ((broadcastSimParams true p ndim X Y Z).isOk = false ↔ (ndim ≠ 4 ∧ ndim ≠ 5)) ∧
    (ndim = 4 → broadcastSimParams true p ndim X Y Z =
        Except.ok (BroadcastResult.par4 (expand2D p X Y))) ∧
    (ndim = 5 → broadcastSimParams true p ndim X Y Z =
        Except.ok (BroadcastResult.par5 (expand3D p X Y Z))) ∧
    (∀ (t c x y : Nat) (row : List α) (v : α), p[t]? = some row → row[c]? = some v →
      x < X → y < Y →
      ∃ (r2 : List (List (List α))) (r3 : List (List α)) (r4 : List α),
        (expand2D p X Y)[t]? = some r2 ∧ r2[c]? = some r3 ∧
        r3[x]? = some r4 ∧ r4[y]? = some v) ∧
    (∀ (t c x y z : Nat) (row : List α) (v : α), p[t]? = some row → row[c]? = some v →
      x < X → y < Y → z < Z →
      ∃ (r2 : List (List (List (List α)))) (r3 : List (List (List α)))
        (r4 : List (List α)) (r5 : List α),
        (expand3D p X Y Z)[t]? = some r2 ∧ r2[c]? = some r3 ∧
        r3[x]? = some r4 ∧ r4[y]? = some r5 ∧ r5[z]? = some v) := by
  refine ⟨?_, ?_, ?_, ?_, ?_⟩
  · by_cases h4 : ndim = 4
    · subst h4
      exact ⟨fun h => Bool.noConfusion (show true = false from h), fun hr => absurd rfl hr.1⟩
    · by_cases h5 : ndim = 5
      · subst h5
        exact ⟨fun h => Bool.noConfusion (show true = false from h), fun hr => absurd rfl hr.2⟩
      · have herr : broadcastSimParams true p ndim X Y Z
            = Except.error "Invalid input shape when loading samples!" := by
          unfold broadcastSimParams
          rw [if_pos rfl, if_neg h4, if_neg h5]
        rw [herr]
        exact ⟨fun _ => ⟨h4, h5⟩, fun _ => rfl⟩
  · intro h4
    subst h4
    rfl
  · intro h5
    subst h5
    rfl
  · intro t c x y row v ht hc hx hy
    refine ⟨row.map (fun w => List.replicate X (List.replicate Y w)),
      List.replicate X (List.replicate Y v), List.replicate Y v, ?_, ?_, ?_, ?_⟩
    · rw [expand2D, List.getElem?_map, ht]; rfl
    · rw [List.getElem?_map, hc]; rfl
    · rw [List.getElem?_replicate, if_pos hx]
    · rw [List.getElem?_replicate, if_pos hy]
  · intro t c x y z row v ht hc hx hy hz
    refine ⟨row.map (fun w => List.replicate X (List.replicate Y (List.replicate Z w))),
      List.replicate X (List.replicate Y (List.replicate Z v)),
      List.replicate Y (List.replicate Z v), List.replicate Z v, ?_, ?_, ?_, ?_, ?_⟩
    · rw [expand3D, List.getElem?_map, ht]; rfl
    · rw [List.getElem?_map, hc]; rfl
    · rw [List.getElem?_replicate, if_pos hx]
    · rw [List.getElem?_replicate, if_pos hy]
    · rw [List.getElem?_replicate, if_pos hz]

/-- C9 counterexample: with no transform configured, a run of two accesses
prints the no-normalization warning twice — once per access, not once across
all accesses as the claim states. -/
theorem warn_once_counterexample :
    (datasetAccesses (none : Option (Int → Int)) [0, 1]).2 =
      [noTransformWarning, noTransformWarning] ∧
    (datasetAccesses (none : Option (Int → Int)) [0, 1]).2.length ≠ 1 := by
  exact ⟨rfl, by decide⟩

theorem helper_datasetAccesses_none {α : Type} (samples : List α) :
    ∀ acc : List α × List String,
      samples.foldl
        (fun acc sample =>
          ((acc.1 ++ [(applySampleTransform (none : Option (α → α)) sample).1],
            acc.2 ++ (applySampleTransform (none : Option (α → α)) sample).2)))
        acc
      = (acc.1 ++ samples, acc.2 ++ List.replicate samples.length noTransformWarning) := by
  induction samples with
  | nil => intro acc; simp
  | cons s rest ih =>
    intro acc
    rw [List.foldl_cons, ih]
    simp [applySampleTransform, List.replicate_succ]

/-- C9 (amended): with no normalization transform configured, every sample is
passed through unchanged, and the warning is printed on every access — a run
of `n` accesses prints it `n` times, not once overall. -/
theorem warn_every_access {α : Type} (samples : List α) :
    datasetAccesses (none : Option (α → α)) samples =
      (samples, List.replicate samples.length noTransformWarning) := by
  rw [datasetAccesses, helper_datasetAccesses_none samples ([], [])]
  simp

/-- C10: whenever the `sequenceLength` list has more than one entry while
`filterSim` and `filterFrame` each have at most one, the category-match index
is never computed (it stays `-1`, and the assert never runs), so the
`sequenceLength[match]` lookup reads `sequenceLength[-1]` — Python's last
entry — for every kept simulation of every category. -/
theorem seqlen_last_entry (nSim nFrame nTop : Nat) (matchesTop : Nat → Bool)
    (seqLen : List (Int × Int)) (hSim : nSim ≤ 1) (hFrame : nFrame ≤ 1)
    (hLen : 1 < seqLen.length) :
    computeMatch nSim nFrame nTop matchesTop = Except.ok (-1) ∧
    resolveSeqLen seqLen (-1) = seqLen.getLast? := by
  constructor
  · rw [computeMatch, if_neg]
    push_neg
    omega
  · rw [resolveSeqLen, if_neg (by omega)]
    rw [pyIdx, if_neg (by norm_num)]
    rw [if_pos (by simpa using Nat.one_le_iff_ne_zero.mpr (by omega))]
    rw [List.getLast?_eq_getElem?]
    norm_num

theorem seqlen_last_entry_witness :
    computeMatch 1 0 3 (fun _ => false) = Except.ok (-1) ∧
    resolveSeqLen [((1 : Int), (1 : Int)), (2, 3)] (-1) = some (2, 3) := by
  have h := seqlen_last_entry 1 0 3 (fun _ => false) [((1 : Int), (1 : Int)), (2, 3)]
    (by norm_num) (by norm_num) (by norm_num)
  exact ⟨h.1, h.2.trans rfl⟩

theorem helper_getD_set_self {α : Type} (l : List α) (m : Nat) (a z : α)
    (h : m < l.length) : (l.set m a).getD m z = a := by
  rw [List.getD_eq_getElem?_getD, List.getElem?_set, if_pos rfl, if_pos h]
  rfl

theorem helper_getD_set_ne {α : Type} (l : List α) (m i : Nat) (a z : α)
    (h : m ≠ i) : (l.set m a).getD i z = l.getD i z := by
  rw [List.getD_eq_getElem?_getD, List.getElem?_set, if_neg h,
    ← List.getD_eq_getElem?_getD]

theorem helper_getD_replicate {α : Type} (n i : Nat) (a : α) :
    (List.replicate n a).getD i a = a := by
  rw [List.getD_eq_getElem?_getD, List.getElem?_replicate]
  split <;> rfl

theorem helper_foldl_set_length {α : Type} (step : List α → Nat → List α)
    (hstep : ∀ p i, (step p i).length = p.length) :
    ∀ (l : List Nat) (b : List α), (l.foldl step b).length = b.length := by
  intro l
  induction l with
  | nil => intro b; rfl
  | cons a t ih => intro b; rw [List.foldl_cons, ih, hstep]

theorem helper_setfold_getD {α : Type} (d : List α) (zero : α) :
    ∀ (n s : Nat) (b : List α), s + n ≤ b.length → ∀ i,
      ((List.range' s n).foldl (fun p j => p.set j (d.getD j zero)) b).getD i zero
        = if s ≤ i ∧ i < s + n then d.getD i zero else b.getD i zero := by
  intro n
  induction n with
  | zero =>
    intro s b _ i
    rw [if_neg (by omega)]
    rfl
  | succ n ih =>
    intro s b hlen i
    rw [show List.range' s (n + 1) = s :: List.range' (s + 1) n from
        List.range'_succ s n 1, List.foldl_cons]
    rw [ih (s + 1) (b.set s (d.getD s zero)) (by rw [List.length_set]; omega) i]
    by_cases h1 : s + 1 ≤ i ∧ i < s + 1 + n
    · rw [if_pos h1, if_pos (by omega)]
    · rw [if_neg h1]
      by_cases h2 : i = s
      · subst h2
        rw [helper_getD_set_self b i _ zero (by omega), if_pos (by omega)]
      · rw [helper_getD_set_ne b s i _ zero (Ne.symm h2)]
        rw [if_neg (by omega)]

theorem helper_warmup_length {α : Type} (inputSteps : Nat) (zero : α) (d : List α) :
    (warmupBuffer inputSteps zero d).length = d.length := by
  rw [warmupBuffer,
    helper_foldl_set_length (fun p i => p.set i (d.getD i zero))
      (fun p i => List.length_set p i _) (List.range inputSteps)
      (List.replicate d.length zero),
    List.length_replicate]

theorem helper_warmup_getD {α : Type} (inputSteps : Nat) (zero : α) (d : List α)
    (hIS : inputSteps ≤ d.length) (i : Nat) :
    (warmupBuffer inputSteps zero d).getD i zero
      = if i < inputSteps then d.getD i zero else zero := by
  rw [warmupBuffer, List.range_eq_range',
    helper_setfold_getD d zero inputSteps 0 (List.replicate d.length zero)
      (by rw [List.length_replicate]; omega) i]
  by_cases h : i < inputSteps
  · rw [if_pos ⟨Nat.zero_le i, by omega⟩, if_pos h]
  · rw [if_neg (by omega), if_neg h, helper_getD_replicate]

theorem helper_predAt_lt {α : Type} (model : List α → α → α) (inputSteps : Nat)
    (zero : α) (d : List α) (i : Nat) (h : i < inputSteps) :
    predAt model inputSteps zero d i = d.getD i zero := by
  rw [predAt, dif_pos h]

theorem helper_predAt_ge {α : Type} (model : List α → α → α) (inputSteps : Nat)
    (zero : α) (d : List α) (i : Nat) (h : inputSteps ≤ i) :
    predAt model inputSteps zero d i =
      model ((List.range inputSteps).map
          (fun j => predAt model inputSteps zero d (i - inputSteps + j)))
        (d.getD (i - 1) zero) := by
  rw [predAt, dif_neg (not_lt.mpr h)]
  congr 1
  exact List.attach_map_val (List.range inputSteps)
    (fun j => predAt model inputSteps zero d (i - inputSteps + j))

theorem helper_rollout_inv {α : Type} (model : List α → α → α) (inputSteps : Nat)
    (zero : α) (d : List α) :
    ∀ (len m : Nat) (b : List α), b.length = d.length → inputSteps ≤ m →
      m + len ≤ d.length →
      (∀ i, i < m → b.getD i zero = predAt model inputSteps zero d i) →
      ∀ i, i < m + len →
        ((List.range' m len).foldl
          (fun p i2 => p.set i2 (model
            ((List.range inputSteps).map
              (fun j => p.getD (i2 - (inputSteps - j)) zero))
            (d.getD (i2 - 1) zero))) b).getD i zero
          = predAt model inputSteps zero d i := by
  intro len
  induction len with
  | zero =>
    intro m b _ _ _ hdone i hi
    exact hdone i (by omega)
  | succ len ih =>
    intro m b hb hm hml hdone i hi
    rw [show List.range' m (len + 1) = m :: List.range' (m + 1) len from
        List.range'_succ m len 1, List.foldl_cons]
    have hvp : model ((List.range inputSteps).map
          (fun j => b.getD (m - (inputSteps - j)) zero)) (d.getD (m - 1) zero)
        = predAt model inputSteps zero d m := by
      rw [helper_predAt_ge model inputSteps zero d m hm]
      congr 1
      apply List.map_congr_left
      intro j hj
      have hjlt := List.mem_range.mp hj
      rw [show m - (inputSteps - j) = m - inputSteps + j from by omega]
      exact hdone (m - inputSteps + j) (by omega)
    refine ih (m + 1) _ (by rw [List.length_set]; exact hb) (by omega) (by omega)
      ?_ i (by omega)
    intro i2 hi2
    by_cases h2 : i2 = m
    · subst h2
      rw [helper_getD_set_self b i2 _ zero (by omega), hvp]
    · rw [helper_getD_set_ne b m i2 _ zero (Ne.symm h2)]
      exact hdone i2 (by omega)

theorem helper_rollout_getD {α : Type} (model : List α → α → α) (inputSteps : Nat)
    (zero : α) (d : List α) (hIS : inputSteps ≤ d.length) (i : Nat)
    (hi : i < d.length) :
    (rollout model inputSteps zero d).getD i zero
      = predAt model inputSteps zero d i := by
  rw [rollout]
  refine helper_rollout_inv model inputSteps zero d (d.length - inputSteps)
    inputSteps (warmupBuffer inputSteps zero d)
    (helper_warmup_length inputSteps zero d) le_rfl (by omega) ?_ i (by omega)
  intro i2 hi2
  rw [helper_warmup_getD inputSteps zero d hIS i2, if_pos hi2]
  exact (helper_predAt_lt model inputSteps zero d i2 hi2).symm

/-- C1 counterexample: with the model that returns its `data` argument
unchanged, `inputSteps = 1` and ground truth `[0, 1, 2]`, the code's rollout
produces `[0, 0, 1]` — position 2 equals the ground-truth frame 1 — whereas
the claimed transition (conditioning and "current" input both taken from the
prediction buffer, ground truth never referenced after warm-up) would produce
`[0, 0, 0]`; so the buffer value at position 2 is not a function of the
prediction buffer alone, and ground truth is referenced after the warm-up. -/
theorem rollout_claim_counterexample :
    rollout (fun (_ : List Int) c => c) 1 0 [0, 1, 2] = [0, 0, 1] ∧
    rolloutSpecVersion (fun (_ : List Int) c => c) 1 0 [0, 1, 2] = [0, 0, 0] ∧
    rollout (fun (_ : List Int) c => c) 1 0 [0, 1, 2] ≠
      rolloutSpecVersion (fun (_ : List Int) c => c) 1 0 [0, 1, 2] :=
  ⟨rfl, rfl, by decide⟩

/-- C1 (amended): for a sequence of length `T = d.length` with
`1 ≤ inputSteps ≤ T` warm-up positions, the prediction buffer equals ground
truth unmodified at every position `i < inputSteps`; at every position
`i ≥ inputSteps` the written value is the model invoked once with conditioning
built solely from prediction-buffer positions `i-inputSteps .. i-1`, but with
the ground-truth frame `i-1` — not the preceding prediction frame — as the
"current" `data` input, so ground truth is referenced at every autoregressive
step. -/
theorem rollout_characterization {α : Type} (model : List α → α → α)
    (inputSteps : Nat) (zero : α) (d : List α) (hIS1 : 1 ≤ inputSteps)
    (hIS : inputSteps ≤ d.length) (i : Nat) (hi : i < d.length) :
    (i < inputSteps → (rollout model inputSteps zero d).getD i zero = d.getD i zero) ∧
    (inputSteps ≤ i →
      (rollout model inputSteps zero d).getD i zero =
        model ((List.range inputSteps).map
            (fun j => (rollout model inputSteps zero d).getD (i - inputSteps + j) zero))
          (d.getD (i - 1) zero)) := by
  constructor
  · intro h
    rw [helper_rollout_getD model inputSteps zero d hIS i hi,
      helper_predAt_lt model inputSteps zero d i h]
  · intro h
    rw [helper_rollout_getD model inputSteps zero d hIS i hi,
      helper_predAt_ge model inputSteps zero d i h]
    congr 1
    apply List.map_congr_left
    intro j hj
    have hjlt := List.mem_range.mp hj
    exact (helper_rollout_getD model inputSteps zero d hIS
      (i - inputSteps + j) (by omega)).symm

theorem rollout_characterization_witness :
    (rollout (fun (_ : List Int) c => c) 1 0 [0, 1, 2]).getD 2 0 = 1 := by
  have h := (rollout_characterization (fun (_ : List Int) c => c) 1 0 [0, 1, 2]
    (by norm_num) (by norm_num) 2 (by norm_num)).2 (by norm_num)
  exact h.trans (by rfl)

theorem helper_zipWith_inv {β : Type} (F G : (ℚ × ℚ) → β → β) :
    ∀ (ms : List (ℚ × ℚ)), (∀ p ∈ ms, ∀ x, G p (F p x) = x) →
      ∀ xs : List β, xs.length = ms.length →
        List.zipWith G ms (List.zipWith F ms xs) = xs := by
  intro ms
  induction ms with
  | nil =>
    intro _ xs hlen
    cases xs with
    | nil => rfl
    | cons x xs => simp at hlen
  | cons p ms ih =>
    intro h xs hlen
    cases xs with
    | nil => simp at hlen
    | cons x xs =>
      simp only [List.zipWith_cons_cons]
      rw [h p (List.mem_cons_self p ms) x,
        ih (fun q hq y => h q (List.mem_cons_of_mem p hq) y) xs (by simpa using hlen)]

theorem helper_elem_roundtrip (m s v : ℚ) (hs : s ≠ 0) : (v - m) / s * s + m = v := by
  rw [div_mul_cancel₀ _ hs]
  ring

theorem helper_chan_roundtrip (m s : ℚ) (hs : s ≠ 0) (chan : List (List ℚ)) :
    (chan.map (fun row => row.map (fun v => (v - m) / s))).map
      (fun row => row.map (fun v => v * s + m)) = chan := by
  rw [List.map_map]
  have hrow : ∀ row : List ℚ,
      ((fun row => List.map (fun v => v * s + m) row) ∘
        (fun row => List.map (fun v => (v - m) / s) row)) row = row := by
    intro row
    simp only [Function.comp_apply, List.map_map]
    have : ∀ v : ℚ,
        ((fun v => v * s + m) ∘ (fun v => (v - m) / s)) v = id v := by
      intro v
      simp only [Function.comp_apply, id_eq]
      exact helper_elem_roundtrip m s v hs
    rw [List.map_congr_left (fun v _ => this v), List.map_id]
  rw [List.map_congr_left (fun row _ => hrow row)]
  simp

theorem helper_filterList_lt (sf sp : List String) :
    ∀ i ∈ filterList sf sp, i < 6 := by
  intro i hi
  unfold filterList at hi
  rcases List.mem_append.mp hi with h | h
  swap
  · revert h; split <;> intro h <;> simp at h <;> omega
  rcases List.mem_append.mp h with h2 | h2
  swap
  · revert h2; split <;> intro h2 <;> simp at h2 <;> omega
  rcases List.mem_append.mp h2 with h3 | h3
  swap
  · revert h3; split <;> intro h3 <;> simp at h3 <;> omega
  rcases List.mem_append.mp h3 with h4 | h4
  · simp at h4; omega
  · revert h4; split <;> intro h4 <;> simp at h4 <;> omega

theorem helper_pySliceLast_subset {α : Type} (xs : List α) (k : Nat) :
    pySliceLast xs k ⊆ xs := by
  unfold pySliceLast
  split
  · exact fun a ha => ha
  · exact List.drop_subset _ xs

theorem helper_std_getD_ne_zero : ∀ i < 6, normStdTraMixed.getD i 0 ≠ 0 := by
  intro i hi
  interval_cases i <;> norm_num [normStdTraMixed, List.getD_cons_zero, List.getD_cons_succ]

theorem helper_selected_std_ne_zero (idx : List Nat) (hidx : ∀ i ∈ idx, i < 6) :
    ∀ s ∈ select normStdTraMixed idx, s ≠ 0 := by
  intro s hs
  rcases List.mem_map.mp hs with ⟨i, hi, rfl⟩
  exact helper_std_getD_ne_zero i (hidx i hi)

theorem helper_data_roundtrip (mean std : List ℚ)
    (hnz : ∀ s ∈ std, s ≠ 0) (hlen : mean.length = std.length)
    (data : List (List (List (List ℚ))))
    (hdata : ∀ tsl ∈ data, tsl.length = std.length) :
    denormalizeData mean std (normalizeData mean std data) = data := by
  rw [normalizeData, denormalizeData, List.map_map]
  have htsl : ∀ tsl ∈ data,
      ((fun tsl => List.zipWith
          (fun ms chan => chan.map (fun row => row.map (fun v => v * ms.2 + ms.1)))
          (mean.zip std) tsl) ∘
        (fun tsl => List.zipWith
          (fun ms chan => chan.map (fun row => row.map (fun v => (v - ms.1) / ms.2)))
          (mean.zip std) tsl)) tsl = tsl := by
    intro tsl htsl
    simp only [Function.comp_apply]
    refine helper_zipWith_inv _ _ (mean.zip std) ?_ tsl ?_
    · intro p hp chan
      exact helper_chan_roundtrip p.1 p.2 (hnz p.2 (List.of_mem_zip hp).2) chan
    · rw [List.length_zip, hlen, min_self]
      exact hdata tsl htsl
  rw [List.map_congr_left htsl]
  simp

theorem helper_params_roundtrip (mean std : List ℚ)
    (hnz : ∀ s ∈ std, s ≠ 0) (hlen : mean.length = std.length)
    (params : List (List ℚ))
    (hparams : ∀ row ∈ params, row.length = std.length) :
    denormalizeParams mean std (normalizeParams mean std params) = params := by
  rw [normalizeParams, denormalizeParams, List.map_map]
  have hrow : ∀ row ∈ params,
      ((fun row => List.zipWith (fun ms v => v * ms.2 + ms.1) (mean.zip std) row) ∘
        (fun row => List.zipWith (fun ms v => (v - ms.1) / ms.2) (mean.zip std) row))
        row = row := by
    intro row hr
    simp only [Function.comp_apply]
    refine helper_zipWith_inv _ _ (mean.zip std) ?_ row ?_
    · intro p hp v
      exact helper_elem_roundtrip p.1 p.2 v (hnz p.2 (List.of_mem_zip hp).2)
    · rw [List.length_zip, hlen, min_self]
      exact hparams row hr
  rw [List.map_congr_left hrow]
  simp

/-- C6: applying the normalization transform `(x - mean) / std` with the
`traMixed` statistics and then inverting with the same stored mean/std
(`x * std + mean`) recovers the original data tensor and parameter tensor
exactly over exact arithmetic — every std entry the channel selection can pick
is nonzero, so no extra hypothesis on the statistics is needed; only the
channel counts must match the selected statistics. -/
theorem normalization_roundtrip (simFields simParams : List String)
    (data : List (List (List (List ℚ)))) (params : List (List ℚ))
    (hdata : ∀ tsl ∈ data, tsl.length = (filterList simFields simParams).length)
    (hparams : ∀ row ∈ params, row.length =
      (pySliceLast (filterList simFields simParams) simParams.length).length) :
    inverseTransformCall simFields simParams
      (transformCall simFields simParams data params) = (data, params) := by
  unfold transformCall inverseTransformCall
  have hsub : ∀ i ∈ pySliceLast (filterList simFields simParams) simParams.length,
      i < 6 := fun i hi =>
    helper_filterList_lt simFields simParams i
      (helper_pySliceLast_subset (filterList simFields simParams) simParams.length hi)
  refine Prod.ext ?_ ?_
  · show denormalizeData _ _ (normalizeData _ _ data) = data
    refine helper_data_roundtrip _ _
      (helper_selected_std_ne_zero _ (helper_filterList_lt simFields simParams))
      (by rw [select, select, List.length_map, List.length_map]) data ?_
    intro tsl htsl
    rw [select, List.length_map]
    exact hdata tsl htsl
  · show (if simParams = [] then _ else _) = params
    by_cases hsp : simParams = []
    · rw [if_pos hsp, if_pos hsp]
    · rw [if_neg hsp, if_neg hsp]
      refine helper_params_roundtrip _ _
        (helper_selected_std_ne_zero _ hsub)
        (by rw [select, select, List.length_map, List.length_map]) params ?_
      intro row hr
      rw [select, List.length_map]
      exact hparams row hr

theorem normalization_roundtrip_witness :
    inverseTransformCall ["dens", "pres"] ["mach"]
      (transformCall ["dens", "pres"] ["mach"]
        [[[[1]], [[2]], [[3]], [[4]], [[5]]]] [[2]])
      = ([[[[1]], [[2]], [[3]], [[4]], [[5]]]], [[2]]) :=
  normalization_roundtrip ["dens", "pres"] ["mach"]
    [[[[1]], [[2]], [[3]], [[4]], [[5]]]] [[2]]
    (by intro tsl htsl; simp at htsl; subst htsl; rfl)
    (by intro row hr; simp at hr; subst hr; rfl)

end AutoregPde
